import Mathlib

/-!
Shallow embedding of `src/samples/transfers/rs/src/main.rs`: a one-shot
firearms-transfer submission script. The embedding covers the
idempotency-key generator (`generate_idempotency_key`, a SHA-256 over a
newline-delimited canonical string, rendered as lowercase hex), the HTTP
submitter (`send_post_request`, modelled with an explicit transport
function), and the serde serialization of the `Item` and `TransferPayload`
records (modelled as a JSON tree).

Machine integers are modelled as `Nat` with explicit reduction `% 2 ^ 32`
where `u32` wrapping arithmetic matters (the SHA-256 compression function).
-/

namespace Transfers

/-- `u32` wrapping addition. -/
def add32 (a b : Nat) : Nat := (a + b) % 2 ^ 32

/-- `u32` right-rotation by `n` bits (for `x < 2 ^ 32`). -/
def rotr32 (n x : Nat) : Nat := ((x >>> n) ||| (x <<< (32 - n))) % 2 ^ 32

/-- SHA-256 Σ₀. -/
def bigSigma0 (x : Nat) : Nat := rotr32 2 x ^^^ rotr32 13 x ^^^ rotr32 22 x

/-- SHA-256 Σ₁. -/
def bigSigma1 (x : Nat) : Nat := rotr32 6 x ^^^ rotr32 11 x ^^^ rotr32 25 x

/-- SHA-256 σ₀. -/
def smallSigma0 (x : Nat) : Nat := rotr32 7 x ^^^ rotr32 18 x ^^^ (x >>> 3)

/-- SHA-256 σ₁. -/
def smallSigma1 (x : Nat) : Nat := rotr32 17 x ^^^ rotr32 19 x ^^^ (x >>> 10)

/-- SHA-256 Ch(e,f,g) = (e ∧ f) ⊕ (¬e ∧ g), complement taken in 32 bits. -/
def ch (e f g : Nat) : Nat := (e &&& f) ^^^ ((e ^^^ 0xffffffff) &&& g)

/-- SHA-256 Maj(a,b,c). -/
def maj (a b c : Nat) : Nat := (a &&& b) ^^^ (a &&& c) ^^^ (b &&& c)

/-- The 64 SHA-256 round constants (FIPS 180-4 §4.2.2), written in decimal. -/
def roundConstants : List Nat :=
  [1116352408, 1899447441, 3049323471, 3921009573, 961987163, 1508970993,
   2453635748, 2870763221, 3624381080, 310598401, 607225278, 1426881987,
   1925078388, 2162078206, 2614888103, 3248222580, 3835390401, 4022224774,
   264347078, 604807628, 770255983, 1249150122, 1555081692, 1996064986,
   2554220882, 2821834349, 2952996808, 3210313671, 3336571891, 3584528711,
   113926993, 338241895, 666307205, 773529912, 1294757372, 1396182291,
   1695183700, 1986661051, 2177026350, 2456956037, 2730485921, 2820302411,
   3259730800, 3345764771, 3516065817, 3600352804, 4094571909, 275423344,
   430227734, 506948616, 659060556, 883997877, 958139571, 1322822218,
   1537002063, 1747873779, 1955562222, 2024104815, 2227730452, 2361852424,
   2428436474, 2756734187, 3204031479, 3329325298]

/-- The SHA-256 working state: eight 32-bit words. -/
structure Hash8 where
  w0 : Nat
  w1 : Nat
  w2 : Nat
  w3 : Nat
  w4 : Nat
  w5 : Nat
  w6 : Nat
  w7 : Nat

/-- The SHA-256 initial hash value (FIPS 180-4 §5.3.3), written in decimal. -/
def initialHash : Hash8 :=
  ⟨1779033703, 3144134277, 1013904242, 2773480762,
   1359893119, 2600822924, 528734635, 1541459225⟩

/-- Group a byte list into big-endian 32-bit words. -/
def bytesToWords : List Nat → List Nat
  | b0 :: b1 :: b2 :: b3 :: rest => (((b0 * 256 + b1) * 256 + b2) * 256 + b3) :: bytesToWords rest
  | _ => []

/-- Extend the 16 words of one block to the 64-entry message schedule. -/
def schedule (ws : List Nat) : List Nat :=
  (List.range 48).foldl
    (fun acc i =>
      acc ++ [add32 (add32 (smallSigma1 (acc.getD (i + 14) 0)) (acc.getD (i + 9) 0))
                    (add32 (smallSigma0 (acc.getD (i + 1) 0)) (acc.getD i 0))])
    ws

/-- One SHA-256 round: rotate the state through T₁ and T₂. -/
def shaRound (k w : Nat) (s : Hash8) : Hash8 :=
  let T1 := add32 (add32 (add32 (add32 s.w7 (bigSigma1 s.w4)) (ch s.w4 s.w5 s.w6)) k) w
  let T2 := add32 (bigSigma0 s.w0) (maj s.w0 s.w1 s.w2)
  ⟨add32 T1 T2, s.w0, s.w1, s.w2, add32 s.w3 T1, s.w4, s.w5, s.w6⟩

/-- Compress one 64-byte block into the running hash value. -/
def compress (H : Hash8) (block : List Nat) : Hash8 :=
  let ws := schedule (bytesToWords block)
  let s := (List.range 64).foldl (fun s t => shaRound (roundConstants.getD t 0) (ws.getD t 0) s) H
  ⟨add32 H.w0 s.w0, add32 H.w1 s.w1, add32 H.w2 s.w2, add32 H.w3 s.w3,
   add32 H.w4 s.w4, add32 H.w5 s.w5, add32 H.w6 s.w6, add32 H.w7 s.w7⟩

/-- The four big-endian bytes of a 32-bit word. -/
def wordBytes (w : Nat) : List Nat :=
  [(w >>> 24) % 256, (w >>> 16) % 256, (w >>> 8) % 256, w % 256]

/-- The 32 digest bytes of a final hash state. -/
def digestBytes (H : Hash8) : List Nat :=
  wordBytes H.w0 ++ wordBytes H.w1 ++ wordBytes H.w2 ++ wordBytes H.w3 ++
  wordBytes H.w4 ++ wordBytes H.w5 ++ wordBytes H.w6 ++ wordBytes H.w7

/-- The eight big-endian bytes of the 64-bit message-length field. -/
def lenBytes64 (n : Nat) : List Nat :=
  [(n >>> 56) % 256, (n >>> 48) % 256, (n >>> 40) % 256, (n >>> 32) % 256,
   (n >>> 24) % 256, (n >>> 16) % 256, (n >>> 8) % 256, n % 256]

/-- SHA-256 padding: append `0x80`, zeros to 56 mod 64, then the bit length. -/
def padMessage (msg : List Nat) : List Nat :=
  msg ++ 0x80 :: (List.replicate ((119 - msg.length % 64) % 64) 0 ++ lenBytes64 (8 * msg.length))

/-- Split a byte list into 64-byte blocks. -/
def toBlocks (bytes : List Nat) : List (List Nat) :=
  if h : bytes = [] then [] else bytes.take 64 :: toBlocks (bytes.drop 64)
termination_by bytes.length
decreasing_by
  simp only [List.length_drop]
  have hp : 0 < bytes.length := List.length_pos.mpr h
  omega

/-- SHA-256 of a byte sequence, as the list of 32 digest bytes. -/
def sha256 (msg : List Nat) : List Nat :=
  digestBytes ((toBlocks (padMessage msg)).foldl compress initialHash)

/-- One lowercase hexadecimal digit (`'0'`–`'9'`, `'a'`–`'f'` for `n < 16`). -/
def hexChar (n : Nat) : Char := if n < 10 then Char.ofNat (48 + n) else Char.ofNat (87 + n)

/-- Render bytes as lowercase hex, two digits per byte (Rust `{:x}` on a digest). -/
def toHex : List Nat → List Char
  | [] => []
  | b :: rest => hexChar (b / 16 % 16) :: hexChar (b % 16) :: toHex rest

/-- SHA-256 of a byte sequence rendered as a lowercase hex string. -/
def sha256hex (msg : List Nat) : String := String.mk (toHex (sha256 msg))

/-- UTF-8 encoding of one character, as bytes. -/
def utf8EncodeChar (c : Char) : List Nat :=
  let n := c.toNat
  if n < 0x80 then [n]
  else if n < 0x800 then [0xc0 ||| (n >>> 6), 0x80 ||| (n &&& 0x3f)]
  else if n < 0x10000 then
    [0xe0 ||| (n >>> 12), 0x80 ||| ((n >>> 6) &&& 0x3f), 0x80 ||| (n &&& 0x3f)]
  else
    [0xf0 ||| (n >>> 18), 0x80 ||| ((n >>> 12) &&& 0x3f),
     0x80 ||| ((n >>> 6) &&& 0x3f), 0x80 ||| (n &&& 0x3f)]

/-- The UTF-8 bytes of a string (Rust `str::as_bytes`). -/
def strBytes (s : String) : List Nat := s.data.flatMap utf8EncodeChar

/-- Rust `[String]::join("\n")`: the elements separated by single newlines. -/
def joinWithNewline : List String → String
  | [] => ""
  | [a] => a
  | a :: rest => a ++ "\n" ++ joinWithNewline rest

/-- The canonical string hashed by `generate_idempotency_key`: the six scalar
fields and the joined serial numbers, newline-delimited (the `format!` call
at src/main.rs lines 58–67). -/
def canonicalString (shipment_date transferor transferee tracking_number
    po_number invoice_number : String) (serial_numbers : List String) : String :=
  shipment_date ++ "\n" ++ transferor ++ "\n" ++ transferee ++ "\n" ++
  tracking_number ++ "\n" ++ po_number ++ "\n" ++ invoice_number ++ "\n" ++
  joinWithNewline serial_numbers

/-- `generate_idempotency_key` (src/main.rs lines 49–72): SHA-256 of the
canonical string's UTF-8 bytes, rendered as lowercase hex. -/
def generate_idempotency_key (shipment_date transferor transferee tracking_number
    po_number invoice_number : String) (serial_numbers : List String) : String :=
  sha256hex (strBytes (canonicalString shipment_date transferor transferee
    tracking_number po_number invoice_number serial_numbers))

/-- The compiled-in credentials and endpoint (src/main.rs lines 8–10). -/
def USERNAME : String := "YOUR_USERNAME"

def PASSWORD : String := "YOUR_PASSWORD"

def API_URL : String := "https://cloud.fastbound.com/api/transfers"

/-- The standard base64 alphabet. -/
def base64Alphabet : List Char :=
  "ABCDEFGHIJKLMNOPQRSTUVWXYZabcdefghijklmnopqrstuvwxyz0123456789+/".data

/-- The alphabet character for a 6-bit group. -/
def base64Digit (n : Nat) : Char := base64Alphabet.getD n 'A'

/-- Standard base64 with `=` padding (the `BASE64.encode` engine). -/
def base64Encode : List Nat → List Char
  | b0 :: b1 :: b2 :: rest =>
    base64Digit (b0 >>> 2) :: base64Digit (((b0 &&& 3) <<< 4) ||| (b1 >>> 4)) ::
    base64Digit (((b1 &&& 15) <<< 2) ||| (b2 >>> 6)) :: base64Digit (b2 &&& 63) ::
    base64Encode rest
  | [b0, b1] =>
    [base64Digit (b0 >>> 2), base64Digit (((b0 &&& 3) <<< 4) ||| (b1 >>> 4)),
     base64Digit ((b1 &&& 15) <<< 2), '=']
  | [b0] => [base64Digit (b0 >>> 2), base64Digit ((b0 &&& 3) <<< 4), '=', '=']
  | [] => []

/-- An outbound HTTP request as assembled by the submitter. -/
structure HttpRequest where
  method : String
  url : String
  headers : List (String × String)
  body : String

/-- An HTTP response as the transport hands it back: status code and body text. -/
structure HttpResponse where
  status : Nat
  body : String

/-- `HeaderValue::from_str`: accepts exactly the byte strings whose bytes are
horizontal tab or at least 32 and not DEL (the `http` crate's check); any
other byte is an error (the `?` at src/main.rs line 79). -/
def headerValueFromStr (s : String) : Except String String :=
  if (strBytes s).all (fun b => b == 9 || (Nat.ble 32 b && b != 127)) then Except.ok s
  else Except.error "failed to parse header value"

/-- `send_post_request` (src/main.rs lines 74–94), with the network modelled
as an explicit `transport` function from requests to either a transport
error or a response (whose body text is already read). On success the
result is the two lines printed to standard output. -/
def send_post_request (transport : HttpRequest → Except String HttpResponse)
    (json_payload : String) : Except String (List String) := do
  let auth_string := String.mk (base64Encode (strBytes (USERNAME ++ ":" ++ PASSWORD)))
  let authValue ← headerValueFromStr ("Basic " ++ auth_string)
  let headers := [("authorization", authValue), ("content-type", "application/json")]
  let response ← transport
    { method := "POST", url := API_URL, headers := headers, body := json_payload }
  pure ["HTTP Code: " ++ toString response.status, "Response: " ++ response.body]

/-- A JSON value tree (what serde_json serializes the records into).
Numbers keep the Rust `f64` values. -/
inductive Json where
  | null : Json
  | str : String → Json
  | num : Float → Json
  | arr : List Json → Json
  | obj : List (String × Json) → Json

/-- The `Item` record (src/main.rs lines 12–31). -/
structure Item where
  manufacturer : String
  importer : Option String
  country : String
  model : String
  caliber : String
  item_type : String
  serial : String
  sku : String
  mpn : String
  upc : String
  barrel_length : Float
  overall_length : Float
  cost : Float
  price : Float
  condition : String
  note : String

/-- The `TransferPayload` record (src/main.rs lines 33–47). -/
structure TransferPayload where
  schema : String
  idempotency_key : String
  transferor : String
  transferee : String
  transferee_emails : List String
  tracking_number : String
  po_number : String
  invoice_number : String
  acquire_type : String
  note : String
  items : List Item

/-- Derived serde serialization of `Item`: fields in declaration order,
`item_type` renamed to `type`, `Option::None` serialized as `null`. -/
def serializeItem (i : Item) : Json :=
  Json.obj
    [("manufacturer", Json.str i.manufacturer),
     ("importer", match i.importer with | none => Json.null | some v => Json.str v),
     ("country", Json.str i.country),
     ("model", Json.str i.model),
     ("caliber", Json.str i.caliber),
     ("type", Json.str i.item_type),
     ("serial", Json.str i.serial),
     ("sku", Json.str i.sku),
     ("mpn", Json.str i.mpn),
     ("upc", Json.str i.upc),
     ("barrel_length", Json.num i.barrel_length),
     ("overall_length", Json.num i.overall_length),
     ("cost", Json.num i.cost),
     ("price", Json.num i.price),
     ("condition", Json.str i.condition),
     ("note", Json.str i.note)]

/-- Derived serde serialization of `TransferPayload`: fields in declaration
order, `schema` renamed to `$schema`, vectors serialized as arrays. -/
def serializeTransferPayload (p : TransferPayload) : Json :=
  Json.obj
    [("$schema", Json.str p.schema),
     ("idempotency_key", Json.str p.idempotency_key),
     ("transferor", Json.str p.transferor),
     ("transferee", Json.str p.transferee),
     ("transferee_emails", Json.arr (p.transferee_emails.map Json.str)),
     ("tracking_number", Json.str p.tracking_number),
     ("po_number", Json.str p.po_number),
     ("invoice_number", Json.str p.invoice_number),
     ("acquire_type", Json.str p.acquire_type),
     ("note", Json.str p.note),
     ("items", Json.arr (p.items.map serializeItem))]

/-! Helper lemmas about the hex rendering and the canonical string. -/

theorem toHex_length (l : List Nat) : (toHex l).length = 2 * l.length := by
  induction l with
  | nil => rfl
  | cons b rest ih => simp [toHex, ih]; omega

theorem digestBytes_length (H : Hash8) : (digestBytes H).length = 32 := by
  simp [digestBytes, wordBytes]

theorem sha256_length (m : List Nat) : (sha256 m).length = 32 := digestBytes_length _

theorem hexChar_mem (n : Nat) : hexChar (n % 16) ∈ "0123456789abcdef".data := by
  have h : n % 16 < 16 := Nat.mod_lt _ (by norm_num)
  revert h
  generalize n % 16 = m
  intro h
  exact (by decide : ∀ m, m < 16 → hexChar m ∈ "0123456789abcdef".data) m h

theorem toHex_mem (l : List Nat) : ∀ c ∈ toHex l, c ∈ "0123456789abcdef".data := by
  induction l with
  | nil => intro c hc; cases hc
  | cons b rest ih =>
    intro c hc
    rcases hc with _ | ⟨_, hc2⟩
    · exact hexChar_mem _
    · rcases hc2 with _ | ⟨_, hc3⟩
      · exact hexChar_mem _
      · exact ih c hc3

theorem data_append_nl (x y : String) :
    (x ++ "\n" ++ y).data = x.data ++ '\n' :: y.data := by
  simp [String.data_append]

theorem canonicalString_data (d t1 t2 trk po inv : String) (s : List String) :
    (canonicalString d t1 t2 trk po inv s).data =
      d.data ++ '\n' :: (t1.data ++ '\n' :: (t2.data ++ '\n' :: (trk.data ++ '\n' ::
        (po.data ++ '\n' :: (inv.data ++ '\n' :: (joinWithNewline s).data))))) := by
  simp [canonicalString, String.data_append]

theorem strip_chunk (p : List Char) {x y : List Char}
    (h : p ++ '\n' :: x = p ++ '\n' :: y) : x = y := by
  have h2 := List.append_cancel_left h
  injection h2

theorem split_at_newline : ∀ (A B R R' : List Char), '\n' ∉ A → '\n' ∉ B →
    A ++ '\n' :: R = B ++ '\n' :: R' → A = B ∧ R = R' := by
  intro A
  induction A with
  | nil =>
    intro B R R' _ hB h
    cases B with
    | nil =>
      refine ⟨rfl, ?_⟩
      injection h
    | cons b bs =>
      injection h with h1 h2
      exact absurd (h1 ▸ List.mem_cons_self b bs) hB
  | cons a as ih =>
    intro B R R' hA hB h
    cases B with
    | nil =>
      injection h with h1 h2
      exact absurd (h1 ▸ List.mem_cons_self a as) hA
    | cons b bs =>
      injection h with h1 h2
      obtain ⟨hab, hr⟩ := ih bs R R' (fun hx => hA (List.mem_cons_of_mem _ hx))
        (fun hx => hB (List.mem_cons_of_mem _ hx)) h2
      exact ⟨by rw [h1, hab], hr⟩

theorem join_cons_cons (a b : String) (t : List String) :
    joinWithNewline (a :: b :: t) = a ++ "\n" ++ joinWithNewline (b :: t) := rfl

theorem joinWithNewline_inj : ∀ (s s' : List String), s.length = s'.length →
    (∀ x ∈ s, '\n' ∉ x.data) → (∀ x ∈ s', '\n' ∉ x.data) →
    joinWithNewline s = joinWithNewline s' → s = s' := by
  intro s
  induction s with
  | nil =>
    intro s' hl _ _ _
    cases s' with
    | nil => rfl
    | cons b bs => simp at hl
  | cons a as ih =>
    intro s' hl hA hB hj
    cases s' with
    | nil => simp at hl
    | cons b bs =>
      cases as with
      | nil =>
        cases bs with
        | nil =>
          rw [show joinWithNewline [a] = a from rfl,
            show joinWithNewline [b] = b from rfl] at hj
          rw [hj]
        | cons b2 bs2 => simp at hl
      | cons a2 as2 =>
        cases bs with
        | nil => simp at hl
        | cons b2 bs2 =>
          rw [join_cons_cons, join_cons_cons] at hj
          have hdata := congrArg String.data hj
          rw [data_append_nl, data_append_nl] at hdata
          obtain ⟨h1, h2⟩ := split_at_newline _ _ _ _
            (hA a (List.mem_cons_self _ _)) (hB b (List.mem_cons_self _ _)) hdata
          have hab : a = b := String.ext h1
          have hjoin : joinWithNewline (a2 :: as2) = joinWithNewline (b2 :: bs2) :=
            String.ext h2
          have htails : a2 :: as2 = b2 :: bs2 :=
            ih (b2 :: bs2) (by simpa using hl)
              (fun x hx => hA x (List.mem_cons_of_mem _ hx))
              (fun x hx => hB x (List.mem_cons_of_mem _ hx)) hjoin
          rw [hab, htails]

/-! Claim theorems. -/

/-- C1: on inputs `"2024-01-01"`, `"T1"`, `"T2"`, `"TRK1"`, `"PO1"`, `"INV1"`,
`["S1", "S2"]`, the idempotency key is exactly the lowercase hex SHA-256 of
the byte string `"2024-01-01\nT1\nT2\nTRK1\nPO1\nINV1\nS1\nS2"` (six scalar
fields and each serial number newline-delimited, in list order). -/
theorem generate_idempotency_key_spec_example :
    generate_idempotency_key "2024-01-01" "T1" "T2" "TRK1" "PO1" "INV1" ["S1", "S2"] =
      sha256hex (strBytes "2024-01-01\nT1\nT2\nTRK1\nPO1\nINV1\nS1\nS2") := by
  unfold generate_idempotency_key
  exact congrArg (fun s => sha256hex (strBytes s)) (by decide)

/-- C2 (counterexample): reordering the serial-number sequence does not always
change the key. The lists `["a", "a\na"]` and `["a\na", "a"]` are distinct
permutations of each other, yet both join to `"a\na\na"`, so the keys agree. -/
theorem serial_reorder_newline_collision :
    List.Perm ["a", "a\na"] ["a\na", "a"] ∧ (["a", "a\na"] : List String) ≠ ["a\na", "a"] ∧
    generate_idempotency_key "2024-01-01" "T1" "T2" "TRK1" "PO1" "INV1" ["a", "a\na"] =
      generate_idempotency_key "2024-01-01" "T1" "T2" "TRK1" "PO1" "INV1" ["a\na", "a"] := by
  refine ⟨by decide, by decide, ?_⟩
  unfold generate_idempotency_key
  exact congrArg (fun s => sha256hex (strBytes s)) (by decide)

/-- C2 (amended): changing exactly one of the six scalar fields (all other
inputs fixed) always changes the canonical string hashed by
`generate_idempotency_key`, and reordering the serial-number sequence into a
different sequence changes it provided no serial number contains a newline;
hence in those cases the keys differ unless SHA-256 itself collides on the
two distinct canonical strings. -/
theorem single_field_or_reorder_changes_hash_input :
    (∀ d d' t1 t2 trk po inv s, d ≠ d' →
      canonicalString d t1 t2 trk po inv s ≠ canonicalString d' t1 t2 trk po inv s) ∧
    (∀ d t1 t1' t2 trk po inv s, t1 ≠ t1' →
      canonicalString d t1 t2 trk po inv s ≠ canonicalString d t1' t2 trk po inv s) ∧
    (∀ d t1 t2 t2' trk po inv s, t2 ≠ t2' →
      canonicalString d t1 t2 trk po inv s ≠ canonicalString d t1 t2' trk po inv s) ∧
    (∀ d t1 t2 trk trk' po inv s, trk ≠ trk' →
      canonicalString d t1 t2 trk po inv s ≠ canonicalString d t1 t2 trk' po inv s) ∧
    (∀ d t1 t2 trk po po' inv s, po ≠ po' →
      canonicalString d t1 t2 trk po inv s ≠ canonicalString d t1 t2 trk po' inv s) ∧
    (∀ d t1 t2 trk po inv inv' s, inv ≠ inv' →
      canonicalString d t1 t2 trk po inv s ≠ canonicalString d t1 t2 trk po inv' s) ∧
    (∀ d t1 t2 trk po inv s s', List.Perm s s' → s ≠ s' → (∀ x ∈ s, '\n' ∉ x.data) →
      canonicalString d t1 t2 trk po inv s ≠ canonicalString d t1 t2 trk po inv s') := by
  refine ⟨?_, ?_, ?_, ?_, ?_, ?_, ?_⟩
  · intro d d' t1 t2 trk po inv s hne heq
    apply hne
    have h0 := congrArg String.data heq
    rw [canonicalString_data, canonicalString_data] at h0
    exact String.ext (List.append_cancel_right h0)
  · intro d t1 t1' t2 trk po inv s hne heq
    apply hne
    have h0 := congrArg String.data heq
    rw [canonicalString_data, canonicalString_data] at h0
    have h1 := strip_chunk _ h0
    exact String.ext (List.append_cancel_right h1)
  · intro d t1 t2 t2' trk po inv s hne heq
    apply hne
    have h0 := congrArg String.data heq
    rw [canonicalString_data, canonicalString_data] at h0
    have h1 := strip_chunk _ (strip_chunk _ h0)
    exact String.ext (List.append_cancel_right h1)
  · intro d t1 t2 trk trk' po inv s hne heq
    apply hne
    have h0 := congrArg String.data heq
    rw [canonicalString_data, canonicalString_data] at h0
    have h1 := strip_chunk _ (strip_chunk _ (strip_chunk _ h0))
    exact String.ext (List.append_cancel_right h1)
  · intro d t1 t2 trk po po' inv s hne heq
    apply hne
    have h0 := congrArg String.data heq
    rw [canonicalString_data, canonicalString_data] at h0
    have h1 := strip_chunk _ (strip_chunk _ (strip_chunk _ (strip_chunk _ h0)))
    exact String.ext (List.append_cancel_right h1)
  · intro d t1 t2 trk po inv inv' s hne heq
    apply hne
    have h0 := congrArg String.data heq
    rw [canonicalString_data, canonicalString_data] at h0
    have h1 := strip_chunk _ (strip_chunk _ (strip_chunk _ (strip_chunk _ (strip_chunk _ h0))))
    exact String.ext (List.append_cancel_right h1)
  · intro d t1 t2 trk po inv s s' hperm hne hfree heq
    apply hne
    have hfree' : ∀ x ∈ s', '\n' ∉ x.data := fun x hx => hfree x (hperm.mem_iff.mpr hx)
    have h0 := congrArg String.data heq
    rw [canonicalString_data, canonicalString_data] at h0
    have h1 := strip_chunk _ (strip_chunk _ (strip_chunk _ (strip_chunk _
      (strip_chunk _ (strip_chunk _ h0)))))
    exact joinWithNewline_inj s s' hperm.length_eq hfree hfree' (String.ext h1)

/-- C2 (witness): each conjunct of the amended claim instantiated at concrete
inputs. -/
theorem single_field_or_reorder_changes_hash_input_witness :
    canonicalString "a" "u" "v" "w" "x" "y" ["s"] ≠ canonicalString "b" "u" "v" "w" "x" "y" ["s"] ∧
    canonicalString "a" "u" "v" "w" "x" "y" ["s"] ≠ canonicalString "a" "u2" "v" "w" "x" "y" ["s"] ∧
    canonicalString "a" "u" "v" "w" "x" "y" ["s"] ≠ canonicalString "a" "u" "v2" "w" "x" "y" ["s"] ∧
    canonicalString "a" "u" "v" "w" "x" "y" ["s"] ≠ canonicalString "a" "u" "v" "w2" "x" "y" ["s"] ∧
    canonicalString "a" "u" "v" "w" "x" "y" ["s"] ≠ canonicalString "a" "u" "v" "w" "x2" "y" ["s"] ∧
    canonicalString "a" "u" "v" "w" "x" "y" ["s"] ≠ canonicalString "a" "u" "v" "w" "x" "y2" ["s"] ∧
    canonicalString "a" "u" "v" "w" "x" "y" ["s", "t"] ≠
      canonicalString "a" "u" "v" "w" "x" "y" ["t", "s"] :=
  ⟨single_field_or_reorder_changes_hash_input.1 "a" "b" "u" "v" "w" "x" "y" ["s"] (by decide),
   single_field_or_reorder_changes_hash_input.2.1 "a" "u" "u2" "v" "w" "x" "y" ["s"] (by decide),
   single_field_or_reorder_changes_hash_input.2.2.1 "a" "u" "v" "v2" "w" "x" "y" ["s"] (by decide),
   single_field_or_reorder_changes_hash_input.2.2.2.1 "a" "u" "v" "w" "w2" "x" "y" ["s"] (by decide),
   single_field_or_reorder_changes_hash_input.2.2.2.2.1 "a" "u" "v" "w" "x" "x2" "y" ["s"] (by decide),
   single_field_or_reorder_changes_hash_input.2.2.2.2.2.1 "a" "u" "v" "w" "x" "y" "y2" ["s"] (by decide),
   single_field_or_reorder_changes_hash_input.2.2.2.2.2.2 "a" "u" "v" "w" "x" "y" ["s", "t"]
     ["t", "s"] (by decide) (by decide) (by decide)⟩

/-- C3: the key generator is deterministic (equal inputs give equal keys) and
its output is always a 64-character string of lowercase hexadecimal digits. -/
theorem key_deterministic_and_lowercase_hex64 (d t1 t2 trk po inv : String) (serials : List String)
    (d' t1' t2' trk' po' inv' : String) (serials' : List String)
    (hd : d = d') (ht1 : t1 = t1') (ht2 : t2 = t2') (htrk : trk = trk')
    (hpo : po = po') (hinv : inv = inv') (hs : serials = serials') :
    generate_idempotency_key d t1 t2 trk po inv serials =
      generate_idempotency_key d' t1' t2' trk' po' inv' serials' ∧
    (generate_idempotency_key d t1 t2 trk po inv serials).length = 64 ∧
    ∀ c ∈ (generate_idempotency_key d t1 t2 trk po inv serials).data,
      c ∈ "0123456789abcdef".data := by
  subst hd ht1 ht2 htrk hpo hinv hs
  refine ⟨rfl, ?_, ?_⟩
  · show (toHex (sha256 _)).length = 64
    rw [toHex_length, sha256_length]
  · exact toHex_mem _

/-- C3 (witness): the determinism and hex-format statement instantiated at
the concrete inputs of the spec's example. -/
theorem key_deterministic_and_lowercase_hex64_witness :
    generate_idempotency_key "2024-01-01" "T1" "T2" "TRK1" "PO1" "INV1" ["S1", "S2"] =
      generate_idempotency_key "2024-01-01" "T1" "T2" "TRK1" "PO1" "INV1" ["S1", "S2"] ∧
    (generate_idempotency_key "2024-01-01" "T1" "T2" "TRK1" "PO1" "INV1" ["S1", "S2"]).length = 64 ∧
    ∀ c ∈ (generate_idempotency_key "2024-01-01" "T1" "T2" "TRK1" "PO1" "INV1" ["S1", "S2"]).data,
      c ∈ "0123456789abcdef".data :=
  key_deterministic_and_lowercase_hex64 "2024-01-01" "T1" "T2" "TRK1" "PO1" "INV1" ["S1", "S2"]
    "2024-01-01" "T1" "T2" "TRK1" "PO1" "INV1" ["S1", "S2"] rfl rfl rfl rfl rfl rfl rfl

/-- C4: the key generator is not injective on logically distinct transfers
when inputs contain newlines: the serial list `["S1\nS2"]` collides with
`["S1", "S2"]`, and an invoice number `"INV1\nS1"` with serials `["S2"]`
collides with invoice `"INV1"` and serials `["S1", "S2"]`. -/
theorem newline_injection_key_collision :
    ((["S1\nS2"] : List String) ≠ ["S1", "S2"] ∧
      generate_idempotency_key "2024-01-01" "T1" "T2" "TRK1" "PO1" "INV1" ["S1\nS2"] =
        generate_idempotency_key "2024-01-01" "T1" "T2" "TRK1" "PO1" "INV1" ["S1", "S2"]) ∧
    (("INV1\nS1" : String) ≠ "INV1" ∧ (["S2"] : List String) ≠ ["S1", "S2"] ∧
      generate_idempotency_key "2024-01-01" "T1" "T2" "TRK1" "PO1" "INV1\nS1" ["S2"] =
        generate_idempotency_key "2024-01-01" "T1" "T2" "TRK1" "PO1" "INV1" ["S1", "S2"]) := by
  refine ⟨⟨by decide, ?_⟩, by decide, by decide, ?_⟩ <;>
    · unfold generate_idempotency_key
      exact congrArg (fun s => sha256hex (strBytes s)) (by decide)

/-- C5: with an empty serial-number list the key is the SHA-256 hex digest of
the six scalar fields each followed by a newline — the canonical string ends
in a trailing newline because the serial slot contributes the empty string. -/
theorem empty_serials_key_has_trailing_newline (d t1 t2 trk po inv : String) :
    generate_idempotency_key d t1 t2 trk po inv [] =
      sha256hex (strBytes
        (d ++ "\n" ++ t1 ++ "\n" ++ t2 ++ "\n" ++ trk ++ "\n" ++ po ++ "\n" ++ inv ++ "\n")) := by
  unfold generate_idempotency_key
  refine congrArg (fun s => sha256hex (strBytes s)) ?_
  simp [canonicalString, joinWithNewline]

/-- C6: for every payload and transport, the POST issued by
`send_post_request` carries an `authorization` header equal to `"Basic "`
followed by the standard base64 encoding of `USERNAME ++ ":" ++ PASSWORD`, a
`content-type` header equal to `"application/json"`, and a body equal to the
given JSON text; the printed result is derived from the transport's answer
to exactly that request. -/
theorem send_post_request_headers_and_body
    (transport : HttpRequest → Except String HttpResponse) (payload : String) :
    send_post_request transport payload =
      (transport
        { method := "POST", url := API_URL,
          headers := [("authorization",
              "Basic " ++ String.mk (base64Encode (strBytes (USERNAME ++ ":" ++ PASSWORD)))),
            ("content-type", "application/json")],
          body := payload }).map
        (fun resp => ["HTTP Code: " ++ toString resp.status, "Response: " ++ resp.body]) := by
  show Except.bind _ _ = _
  cases transport
    { method := "POST", url := API_URL,
      headers := [("authorization",
          "Basic " ++ String.mk (base64Encode (strBytes (USERNAME ++ ":" ++ PASSWORD)))),
        ("content-type", "application/json")],
      body := payload } <;> rfl

/-- C7: whatever response the transport returns — status 500 included —
`send_post_request` completes without an error, printing the status code and
the response body; failure is never derived from the status code alone. -/
theorem send_post_request_accepts_any_status (resp : HttpResponse) (payload : String) :
    send_post_request (fun _ => Except.ok resp) payload =
      Except.ok ["HTTP Code: " ++ toString resp.status, "Response: " ++ resp.body] := by
  rfl

/-- C8: serializing a `TransferPayload` whose `items` field is empty produces
an object in which the `items` key is present and bound to the empty JSON
array, which is not `null`. -/
theorem empty_items_serializes_to_empty_array (p : TransferPayload) (h : p.items = []) :
    ∃ fields, serializeTransferPayload p = Json.obj fields ∧
      List.lookup "items" fields = some (Json.arr []) ∧ Json.arr [] ≠ Json.null := by
  obtain ⟨sch, ik, tor, tee, em, tn, pn, inv, aty, nt, items⟩ := p
  simp only at h
  subst h
  exact ⟨_, rfl, rfl, fun hq => Json.noConfusion hq⟩

/-- C8 (witness): the empty-items statement at a concrete payload. -/
theorem empty_items_serializes_to_empty_array_witness :
    ∃ fields, serializeTransferPayload
      { schema := "https://schemas.fastbound.org/transfers-push-v1.json",
        idempotency_key := "k", transferor := "T1", transferee := "T2",
        transferee_emails := [], tracking_number := "TRK1", po_number := "PO1",
        invoice_number := "INV1", acquire_type := "Purchase", note := "",
        items := [] } = Json.obj fields ∧
      List.lookup "items" fields = some (Json.arr []) ∧ Json.arr [] ≠ Json.null :=
  empty_items_serializes_to_empty_array _ rfl

/-- C9: serializing an `Item` whose `importer` is `none` produces an object in
which the `importer` key is present with value `null`, which is not the empty
string. -/
theorem absent_importer_serializes_to_null (i : Item) (h : i.importer = none) :
    ∃ fields, serializeItem i = Json.obj fields ∧
      List.lookup "importer" fields = some Json.null ∧ Json.null ≠ Json.str "" := by
  obtain ⟨mf, imp, co, mo, ca, ty, se, sk, mp, up, bl, ol, cs, pr, cd, nt⟩ := i
  simp only at h
  subst h
  exact ⟨_, rfl, rfl, fun hq => Json.noConfusion hq⟩

/-- C9 (witness): the absent-importer statement at the first hardcoded item of
`main`. -/
theorem absent_importer_serializes_to_null_witness :
    ∃ fields, serializeItem
      { manufacturer := "Glock", importer := none, country := "Austria",
        model := "G17", caliber := "9mm", item_type := "Pistol",
        serial := "ABC123456", sku := "GLK-G17", mpn := "G17MPN",
        upc := "123456789012", barrel_length := 4.48, overall_length := 8.03,
        cost := 500.00, price := 650.00, condition := "New",
        note := "Brand new firearm" } = Json.obj fields ∧
      List.lookup "importer" fields = some Json.null ∧ Json.null ≠ Json.str "" :=
  absent_importer_serializes_to_null _ rfl

/-- C10: the key generator is a total pure function — every combination of
string inputs and serial-number list determines exactly one output string,
with no error path. -/
theorem generate_idempotency_key_total (d t1 t2 trk po inv : String) (serials : List String) :
    ∃! k : String, generate_idempotency_key d t1 t2 trk po inv serials = k :=
  ⟨generate_idempotency_key d t1 t2 trk po inv serials, rfl, fun _ h => h.symm⟩

end Transfers
